import Mathlib

/-!
Shallow embedding of the trend-analysis engine of `modules/advanced_analytics.py`
(class `DeviceAnalytics`): the bounded history store (`_append_to_history`),
the time-window filter and per-family trend analyzers
(`_analyze_battery_trends`, `_analyze_performance_trends`), the linear-fit
classifier (`_calculate_trend`) and forecaster (`_predict_next_value`), and
the snapshot producers (`_get_battery_metrics`, `_get_storage_metrics`).

Numbers are embedded as exact rationals (the Python code computes with
machine floats via numpy; the claims under check concern the algorithmic
behaviour, not floating-point rounding).  Timestamps are embedded as
rationals ordered like the ISO-8601 datetimes the code compares.
Python `round(x, 2)` is embedded as rounding `100*x` to an integer; the
half-way tie-breaking convention differs from Python's round-half-to-even,
and no statement below depends on a tie.
-/

/-- Trend label: the three strings `"improving"`, `"stable"`, `"degrading"`
returned by `_calculate_trend`. -/
inductive Trend where
  | improving
  | stable
  | degrading
deriving DecidableEq

/-- One stored battery history entry: the dict built by `_get_battery_metrics`
plus the `timestamp` key added in `collect_historical_data`.  `none` embeds
Python `None` (the absent marker), kept distinct from numeric zero. -/
structure MetricSnapshot where
  timestamp : ℚ
  level : Option ℚ
  cycle_count : Option ℚ
  is_charging : Option Bool
deriving DecidableEq

/-- History cap used by `_append_to_history` ("Keep only last 1000 entries"). -/
def historyCap : ℕ := 1000

/-- In-memory step of `_append_to_history`: `history.append(data)` followed by
`history = history[-1000:]` when the length exceeds 1000. -/
def appendToHistory (history : List MetricSnapshot) (data : MetricSnapshot) :
    List MetricSnapshot :=
  let h := history ++ [data]
  if historyCap < h.length then h.drop (h.length - historyCap) else h

/-- Iterated appends: folding `_append_to_history` over a list of snapshots. -/
def runAppends (init : List MetricSnapshot) (ds : List MetricSnapshot) :
    List MetricSnapshot :=
  ds.foldl appendToHistory init

/-- Index sequence `x = 0 .. n-1` built by `np.arange(len(values))`. -/
def xIndices (n : ℕ) : List ℚ :=
  (List.range n).map (fun i => (i : ℚ))

/-- Least-squares slope of `values` against `x = 0..n-1`: the closed-form
normal-equation solution computed by `np.polyfit(x, y, 1)[0]`. -/
def olsSlope (values : List ℚ) : ℚ :=
  let n : ℚ := values.length
  let xs := xIndices values.length
  let sx := xs.sum
  let sy := values.sum
  let sxy := ((xs.zip values).map (fun p => p.1 * p.2)).sum
  let sxx := (xs.map (fun x => x * x)).sum
  (n * sxy - sx * sy) / (n * sxx - sx * sx)

/-- Least-squares intercept of the same fit, `np.polyfit(x, y, 1)[1]`. -/
def olsIntercept (values : List ℚ) : ℚ :=
  let n : ℚ := values.length
  (values.sum - olsSlope values * (xIndices values.length).sum) / n

/-- Embedding of `_calculate_trend`: fewer than 2 points is `stable`;
otherwise the sign of the fitted slope against the fixed `±0.1` thresholds
(strict inequalities, so exactly `±0.1` falls to `stable`). -/
def calculateTrend (values : List ℚ) : Trend :=
  if values.length < 2 then .stable
  else
    let slope := olsSlope values
    if 1/10 < slope then .improving
    else if slope < -(1/10) then .degrading
    else .stable

/-- Python `round(x, 2)`: round `100*x` to an integer, divide back. -/
def round2 (q : ℚ) : ℚ :=
  ((round (q * 100) : ℤ) : ℚ) / 100

/-- Embedding of `_predict_next_value`: fewer than 3 points gives `None`;
otherwise the fitted line evaluated at `x = len(values)`, rounded to two
decimal places. -/
def predictNextValue (values : List ℚ) : Option ℚ :=
  if values.length < 3 then none
  else some (round2 (olsSlope values * (values.length : ℚ) + olsIntercept values))

/-- Result record produced by the analyzers (`AnalyticsResult` dataclass). -/
structure AnalyticsResult where
  metric_name : String
  current_value : ℚ
  trend : Trend
  prediction : Option ℚ
  confidence : ℚ
  recommendations : List String
deriving DecidableEq

/-- Embedding of `_get_battery_recommendations`. -/
def getBatteryRecommendations (trend : Trend) (current_level : ℚ) : List String :=
  (if trend = .degrading then
    ["Battery performance declining - monitor closely",
     "Consider enabling Low Power Mode more frequently",
     "Reduce screen brightness and background app refresh"]
   else []) ++
  (if current_level < 20 then ["Charge device soon to avoid shutdown"] else [])

/-- Embedding of `_get_cycle_recommendations`. -/
def getCycleRecommendations (cycle_count : ℚ) : List String :=
  (if 500 < cycle_count then
    ["Battery cycle count is high - consider replacement",
     "Enable Optimized Battery Charging",
     "Avoid frequent full charge/discharge cycles"]
   else []) ++
  (if 1000 < cycle_count then ["Battery replacement strongly recommended"] else [])

/-- Time-window filter applied by every analyzer: keep the entries whose
timestamp is at or after the cutoff (`datetime.fromisoformat(ts) >= cutoff`). -/
def filterRecent (history : List MetricSnapshot) (cutoff : ℚ) :
    List MetricSnapshot :=
  history.filter (fun e => decide (cutoff ≤ e.timestamp))

/-- Series extraction for the battery level: the list comprehension
`[e['level'] for e in recent_history if e['level'] is not None]`. -/
def extractLevels (recent : List MetricSnapshot) : List ℚ :=
  recent.filterMap (fun e => e.level)

/-- Series extraction for the battery cycle count. -/
def extractCycleCounts (recent : List MetricSnapshot) : List ℚ :=
  recent.filterMap (fun e => e.cycle_count)

/-- The dict returned by `_analyze_battery_trends`: at most one result under
each of the keys `battery_level` and `battery_cycles`. -/
structure BatteryTrendResults where
  battery_level : Option AnalyticsResult
  battery_cycles : Option AnalyticsResult
deriving DecidableEq

/-- Embedding of `_analyze_battery_trends` (the pure part, given the loaded
history and the cutoff): filter to the window, return nothing when the window
has fewer than 3 entries, then build a result for each series that passes its
guard (`if levels:` — nonempty — for the level; `if cycle_counts and
len(cycle_counts) > 1` for the cycles). -/
def analyzeBatteryTrends (history : List MetricSnapshot) (cutoff : ℚ) :
    BatteryTrendResults :=
  let recent := filterRecent history cutoff
  if recent.length < 3 then ⟨none, none⟩
  else
    let levels := extractLevels recent
    let cycle_counts := extractCycleCounts recent
    let levelRes : Option AnalyticsResult :=
      match levels.getLast? with
      | none => none
      | some last =>
        let t := calculateTrend levels
        some ⟨"Battery Level", last, t, predictNextValue levels, 7/10,
              getBatteryRecommendations t last⟩
    let cycleRes : Option AnalyticsResult :=
      match cycle_counts.getLast? with
      | none => none
      | some last =>
        if 1 < cycle_counts.length then
          some ⟨"Battery Cycles", last, calculateTrend cycle_counts,
                predictNextValue cycle_counts, 4/5,
                getCycleRecommendations last⟩
        else none
    ⟨levelRes, cycleRes⟩

/-- The dict returned by `_get_battery_metrics`.  Each reading is taken over
verbatim: the code records `int(stdout)` when the subprocess succeeded and
`None` otherwise, with no truthiness test, so a zero reading stays zero. -/
structure BatteryMetrics where
  level : Option ℤ
  cycle_count : Option ℤ
  is_charging : Option Bool
deriving DecidableEq

/-- Embedding of `_get_battery_metrics`, taking the already-parsed readings
(`none` embeds a failed subprocess or unparseable output) and the stripped
charging string. -/
def getBatteryMetrics (levelRaw cycleRaw : Option ℤ) (chargingRaw : Option String) :
    BatteryMetrics :=
  { level := levelRaw
    cycle_count := cycleRaw
    is_charging := chargingRaw.map (fun s => s.toLower == "true") }

/-- Python truthiness of an optional integer: `None` and `0` are falsy. -/
def pyTruthy : Option ℤ → Bool
  | none => false
  | some n => n != 0

/-- The dict returned by `_get_storage_metrics`. -/
structure StorageMetrics where
  total_gb : Option ℚ
  used_gb : Option ℚ
  available_gb : Option ℚ
  usage_percent : Option ℚ
deriving DecidableEq

/-- Python truthiness of an optional rational (for `usage_percent`). -/
def pyTruthyQ : Option ℚ → Bool
  | none => false
  | some q => q != 0

/-- Embedding of `_get_storage_metrics`.  Every guard is a Python truthiness
test (`if total_bytes and available_bytes`, `if total_bytes else None`, ...):
a reading that is `None` or the number zero fails the guard and the derived
field is recorded as `None`. -/
def getStorageMetrics (total_bytes available_bytes : Option ℤ) : StorageMetrics :=
  let used_bytes : Option ℤ :=
    if pyTruthy total_bytes && pyTruthy available_bytes then
      some (total_bytes.getD 0 - available_bytes.getD 0)
    else none
  let usage_percent : Option ℚ :=
    if pyTruthy total_bytes && pyTruthy used_bytes then
      some ((used_bytes.getD 0 : ℚ) / (total_bytes.getD 0 : ℚ) * 100)
    else none
  { total_gb :=
      if pyTruthy total_bytes then some (round2 ((total_bytes.getD 0 : ℚ) / 2 ^ 30))
      else none
    used_gb :=
      if pyTruthy used_bytes then some (round2 ((used_bytes.getD 0 : ℚ) / 2 ^ 30))
      else none
    available_gb :=
      if pyTruthy available_bytes then
        some (round2 ((available_bytes.getD 0 : ℚ) / 2 ^ 30))
      else none
    usage_percent :=
      if pyTruthyQ usage_percent then some (round2 (usage_percent.getD 0))
      else none }

/-- One stored performance history entry (`_get_performance_metrics` dict plus
timestamp). -/
structure PerfEntry where
  timestamp : ℚ
  total_memory_gb : Option ℚ
  thermal_state : Option String
deriving DecidableEq

/-- Window filter of `_analyze_performance_trends` (same cutoff test as the
battery analyzer). -/
def filterRecentPerf (history : List PerfEntry) (cutoff : ℚ) : List PerfEntry :=
  history.filter (fun e => decide (cutoff ≤ e.timestamp))

/-- The comprehension `[e['thermal_state'] for e in recent_history if
e['thermal_state']]`: Python truthiness keeps only non-`None`, non-empty
strings. -/
def thermalStatesOf (recent : List PerfEntry) : List String :=
  recent.filterMap (fun e =>
    match e.thermal_state with
    | some s => if s == "" then none else some s
    | none => none)

/-- Count of states outside `['Normal', 'Fair']`
(`sum(1 for state in thermal_states if state not in ['Normal', 'Fair'])`). -/
def thermalIssues (thermal_states : List String) : ℕ :=
  (thermal_states.filter (fun s => !(s == "Normal" || s == "Fair"))).length

/-- The score `max(0, 100 - thermal_issues / len(thermal_states) * 100)`. -/
def thermalScore (thermal_states : List String) : ℚ :=
  max 0 (100 - (thermalIssues thermal_states : ℚ) / (thermal_states.length : ℚ) * 100)

/-- Embedding of `_get_thermal_recommendations`. -/
def getThermalRecommendations (score : ℚ) : List String :=
  if score < 70 then
    ["Device overheating frequently",
     "Avoid intensive tasks while charging",
     "Remove case during heavy usage",
     "Keep device out of direct sunlight"]
  else []

/-- Embedding of `_analyze_performance_trends` (pure part): window filter, the
`< 3` window guard, then — when any thermal state is present — a result whose
trend is `stable` iff the thermal score exceeds 80 and whose prediction is
always `None`. -/
def analyzePerformanceTrends (history : List PerfEntry) (cutoff : ℚ) :
    Option AnalyticsResult :=
  let recent := filterRecentPerf history cutoff
  if recent.length < 3 then none
  else
    let thermal_states := thermalStatesOf recent
    if thermal_states.isEmpty then none
    else
      let score := thermalScore thermal_states
      some ⟨"Thermal Performance", score,
            if 80 < score then .stable else .degrading,
            none, 3/5, getThermalRecommendations score⟩

/-- Outcome of the load step of `_append_to_history`: the history file may be
missing, may fail to parse (`except: history = []`), or may load a list. -/
inductive ReadOutcome where
  | noFile
  | corrupt
  | ok (history : List MetricSnapshot)

/-- The in-memory history after the load step: a missing or corrupt file is
treated as the empty list. -/
def loadedHistory : ReadOutcome → List MetricSnapshot
  | .ok h => h
  | _ => []

/-- Embedding of the whole of `_append_to_history` including its I/O ends: the
guarded read (missing/corrupt collapses to `[]`), the append-and-truncate, and
the unguarded write — `open(history_file, 'w')` sits outside every
`try`/`except`, so a failing write raises to the caller, embedded as
`Except.error`. -/
def appendToHistoryFS (r : ReadOutcome) (data : MetricSnapshot)
    (writeSucceeds : Bool) : Except Unit (List MetricSnapshot) :=
  let updated := appendToHistory (loadedHistory r) data
  if writeSucceeds then .ok updated else .error ()

/-- JSON value as written by `json.dump` for one snapshot field. -/
inductive JValue where
  | null
  | num (q : ℚ)
  | bool (b : Bool)
deriving DecidableEq

/-- Serialization of an optional numeric field: Python `None` becomes JSON
`null`, a number stays a number. -/
def encodeOptNum : Option ℚ → JValue
  | none => .null
  | some q => .num q

/-- Deserialization of an optional numeric field; a non-numeric, non-null
value is a type error (`none`). -/
def decodeOptNum : JValue → Option (Option ℚ)
  | .null => some none
  | .num q => some (some q)
  | .bool _ => none

/-- Serialization of an optional boolean field. -/
def encodeOptBool : Option Bool → JValue
  | none => .null
  | some b => .bool b

/-- Deserialization of an optional boolean field. -/
def decodeOptBool : JValue → Option (Option Bool)
  | .null => some none
  | .bool b => some (some b)
  | .num _ => none

/-- The JSON object `json.dump` writes for one battery snapshot. -/
def encodeSnap (s : MetricSnapshot) : ℚ × JValue × JValue × JValue :=
  (s.timestamp, encodeOptNum s.level, encodeOptNum s.cycle_count,
   encodeOptBool s.is_charging)

/-- Rebuilding a snapshot from its JSON object. -/
def decodeSnap (j : ℚ × JValue × JValue × JValue) : Option MetricSnapshot := do
  let lvl ← decodeOptNum j.2.1
  let cyc ← decodeOptNum j.2.2.1
  let chg ← decodeOptBool j.2.2.2
  some ⟨j.1, lvl, cyc, chg⟩

/-- The window query of the analyzers seen as a store operation: a missing
history file yields the empty sequence (`if not history_file.exists(): return
{}`), otherwise the loaded history is filtered by the cutoff. -/
def windowQuery (store : Option (List MetricSnapshot)) (cutoff : ℚ) :
    List MetricSnapshot :=
  match store with
  | none => []
  | some h => filterRecent h cutoff

/-! Helper lemmas. -/

theorem rtake_append_rtake (n : ℕ) (l m : List MetricSnapshot) :
    (l.rtake n ++ m).rtake n = (l ++ m).rtake n := by
  rw [List.rtake_eq_reverse_take_reverse, List.rtake_eq_reverse_take_reverse,
    List.rtake_eq_reverse_take_reverse]
  rw [List.reverse_append, List.reverse_append, List.reverse_reverse]
  congr 1
  rw [List.take_append_eq_append_take, List.take_append_eq_append_take, List.take_take,
    Nat.min_eq_left (Nat.sub_le n m.reverse.length)]

theorem appendToHistory_eq_rtake (h : List MetricSnapshot) (d : MetricSnapshot) :
    appendToHistory h d = (h ++ [d]).rtake historyCap := by
  simp only [appendToHistory, List.rtake]
  split
  · rfl
  · next hle =>
    have : (h ++ [d]).length - historyCap = 0 := by omega
    rw [this, List.drop_zero]

theorem runAppends_eq_rtake (ds : List MetricSnapshot) (init : List MetricSnapshot)
    (hne : ds ≠ []) : runAppends init ds = (init ++ ds).rtake historyCap := by
  induction ds generalizing init with
  | nil => exact absurd rfl hne
  | cons d ds' ih =>
    show runAppends (appendToHistory init d) ds' = _
    cases ds' with
    | nil =>
      show appendToHistory init d = _
      rw [appendToHistory_eq_rtake]
    | cons e es =>
      rw [ih _ (by simp)]
      rw [appendToHistory_eq_rtake, rtake_append_rtake]
      simp

theorem olsSlope_const3 (c : ℚ) : olsSlope [c, c, c] = 0 := by
  simp [olsSlope, xIndices, List.range_succ]
  left; ring

theorem olsIntercept_const3 (c : ℚ) : olsIntercept [c, c, c] = c := by
  simp [olsIntercept, olsSlope, xIndices, List.range_succ]
  ring_nf

theorem round2_intCast (c : ℤ) : round2 ((c : ℚ)) = c := by
  unfold round2
  rw [show ((c : ℚ) * 100) = ((c * 100 : ℤ) : ℚ) by push_cast; ring, round_intCast]
  push_cast
  field_simp

theorem calculateTrend_const3 (c : ℚ) : calculateTrend [c, c, c] = .stable := by
  simp [calculateTrend, olsSlope_const3]
  norm_num

theorem predictNext_const3 (c : ℤ) : predictNextValue [(c : ℚ), c, c] = some (c : ℚ) := by
  simp [predictNextValue, olsSlope_const3, olsIntercept_const3]
  rw [round2_intCast]

theorem calculateTrend_eq_of_two_le (v : List ℚ) (hv : 2 ≤ v.length) :
    calculateTrend v =
      (if 1/10 < olsSlope v then Trend.improving
       else if olsSlope v < -(1/10) then Trend.degrading else Trend.stable) := by
  simp only [calculateTrend]
  rw [if_neg (by omega : ¬ v.length < 2)]

/-! Claim theorems. -/

/-- C2: for every initial stored state and every sequence of more than 1000
appends to the same key, the stored history afterwards is exactly the last
1000 appended snapshots in their original order (oldest discarded first),
its length is exactly 1000, and the stored length never exceeds 1000 after
any single append. -/
theorem append_cap_invariant (init ds : List MetricSnapshot) (h : 1000 < ds.length) :
    runAppends init ds = ds.drop (ds.length - 1000) ∧
    (runAppends init ds).length = 1000 ∧
    ∀ (hist : List MetricSnapshot) (d : MetricSnapshot),
      (appendToHistory hist d).length ≤ 1000 := by
  have hne : ds ≠ [] := by intro he; rw [he] at h; simp at h
  have heq : runAppends init ds = ds.drop (ds.length - 1000) := by
    rw [runAppends_eq_rtake ds init hne, List.rtake]
    have hlen : (init ++ ds).length = init.length + ds.length := by simp
    rw [hlen]
    have : init.length + ds.length - historyCap = init.length + (ds.length - 1000) := by
      simp [historyCap]; omega
    rw [this, ← List.drop_drop, List.drop_left]
  refine ⟨heq, ?_, ?_⟩
  · rw [heq, List.length_drop]
    omega
  · intro hist d
    simp only [appendToHistory]
    split
    · next hlt => simp only [List.length_drop]; simp [historyCap] at hlt ⊢; omega
    · next hle => simp [historyCap] at hle ⊢; omega

/-- Witness for `append_cap_invariant` at a concrete run of 1001 appends. -/
theorem append_cap_invariant_witness :
    1000 < (List.replicate 1001 (⟨0, none, none, none⟩ : MetricSnapshot)).length ∧
    (runAppends [] (List.replicate 1001 (⟨0, none, none, none⟩ : MetricSnapshot))).length
      = 1000 :=
  ⟨by rw [List.length_replicate]; norm_num,
   (append_cap_invariant [] _ (by rw [List.length_replicate]; norm_num)).2.1⟩

/-- C3: `_calculate_trend` returns `stable` for fewer than 2 points, and
otherwise classifies by the least-squares slope over `x = 0..n-1` with strict
thresholds: `improving` exactly when the slope exceeds `0.1`, `degrading`
exactly when it is below `-0.1`, `stable` otherwise — in particular a slope
of exactly `0.1` or exactly `-0.1` classifies as `stable`. -/
theorem trend_classification :
    (∀ v : List ℚ, v.length < 2 → calculateTrend v = .stable) ∧
    (∀ v : List ℚ, 2 ≤ v.length →
      ((calculateTrend v = .improving ↔ 1/10 < olsSlope v) ∧
       (calculateTrend v = .degrading ↔ olsSlope v < -(1/10)) ∧
       (calculateTrend v = .stable ↔ -(1/10) ≤ olsSlope v ∧ olsSlope v ≤ 1/10))) ∧
    calculateTrend [0, 1/10] = .stable ∧
    calculateTrend [0, -(1/10)] = .stable := by
  have hgen : ∀ v : List ℚ, 2 ≤ v.length →
      ((calculateTrend v = .improving ↔ 1/10 < olsSlope v) ∧
       (calculateTrend v = .degrading ↔ olsSlope v < -(1/10)) ∧
       (calculateTrend v = .stable ↔ -(1/10) ≤ olsSlope v ∧ olsSlope v ≤ 1/10)) := by
    intro v hv
    rw [calculateTrend_eq_of_two_le v hv]
    by_cases h1 : 1/10 < olsSlope v
    · rw [if_pos h1]
      exact ⟨⟨fun _ => h1, fun _ => rfl⟩,
        ⟨fun h => (nomatch h), fun h => absurd h (by linarith)⟩,
        ⟨fun h => (nomatch h), fun h => absurd h1 (by linarith [h.2])⟩⟩
    · rw [if_neg h1]
      by_cases h2 : olsSlope v < -(1/10)
      · rw [if_pos h2]
        exact ⟨⟨fun h => (nomatch h), fun h => absurd h h1⟩,
          ⟨fun _ => h2, fun _ => rfl⟩,
          ⟨fun h => (nomatch h), fun h => absurd h2 (by linarith [h.1])⟩⟩
      · rw [if_neg h2]
        exact ⟨⟨fun h => (nomatch h), fun h => absurd h h1⟩,
          ⟨fun h => (nomatch h), fun h => absurd h h2⟩,
          ⟨fun _ => ⟨by linarith, by linarith⟩, fun _ => rfl⟩⟩
  refine ⟨fun v hv => by simp [calculateTrend, hv], hgen, ?_, ?_⟩
  · have hs : olsSlope [0, 1/10] = 1/10 := by
      norm_num [olsSlope, xIndices, List.range_succ]
    rw [calculateTrend_eq_of_two_le _ (by simp), hs]
    norm_num
  · have hs : olsSlope [0, -(1/10)] = -(1/10) := by
      norm_num [olsSlope, xIndices, List.range_succ]
    rw [calculateTrend_eq_of_two_le _ (by simp), hs]
    norm_num

/-- Witness for `trend_classification` at the one-point series `[5]`. -/
theorem trend_classification_witness : calculateTrend [(5 : ℚ)] = Trend.stable :=
  trend_classification.1 [5] (by simp)

/-- C5: `_predict_next_value` returns `None` for fewer than 3 points, and
otherwise the least-squares line over `x = 0..n-1` evaluated at `x = n`,
rounded to two decimal places; on a constant integer-valued 3-point series
the prediction is that constant. -/
theorem predict_next_spec :
    (∀ v : List ℚ, v.length < 3 → predictNextValue v = none) ∧
    (∀ v : List ℚ, 3 ≤ v.length →
      predictNextValue v =
        some (round2 (olsSlope v * (v.length : ℚ) + olsIntercept v))) ∧
    (∀ c : ℤ, predictNextValue [(c : ℚ), c, c] = some ((c : ℚ))) := by
  refine ⟨fun v hv => by simp [predictNextValue, hv],
    fun v hv => by simp [predictNextValue, if_neg (by omega : ¬ v.length < 3)],
    predictNext_const3⟩

/-- Witness for `predict_next_spec` at the empty series. -/
theorem predict_next_spec_witness : predictNextValue ([] : List ℚ) = none :=
  predict_next_spec.1 [] (by simp)

/-- C6: the evenly spaced series `80, 75, 70, 65` classifies as `degrading`
and its one-step forecast is `60.0`. -/
theorem scenario_decline :
    calculateTrend [80, 75, 70, 65] = .degrading ∧
    predictNextValue [80, 75, 70, 65] = some 60 := by
  have hs : olsSlope [80, 75, 70, 65] = -5 := by
    norm_num [olsSlope, xIndices, List.range_succ]
  have hi : olsIntercept [80, 75, 70, 65] = 80 := by
    norm_num [olsIntercept, olsSlope, xIndices, List.range_succ]
  constructor
  · rw [calculateTrend_eq_of_two_le _ (by simp), hs]
    norm_num
  · simp [predictNextValue, hs, hi]
    norm_num [round2]

/-- C1 counterexample: a window of three entries in which only the last has a
present `level`.  The extracted series has exactly one point (fewer than 3),
yet `_analyze_battery_trends` still produces a `battery_level` result — the
code gates on the window length, not on the extracted series length. -/
theorem insufficient_series_counterexample :
    (extractLevels (filterRecent
        [⟨0, none, none, none⟩, ⟨1, none, none, none⟩, ⟨2, some 80, none, none⟩]
        (-1))).length = 1 ∧
    (analyzeBatteryTrends
        [⟨0, none, none, none⟩, ⟨1, none, none, none⟩, ⟨2, some 80, none, none⟩]
        (-1)).battery_level =
      some ⟨"Battery Level", 80, .stable, none, 7/10, []⟩ := by
  have hf : filterRecent
      [⟨0, none, none, none⟩, ⟨1, none, none, none⟩, ⟨2, some 80, none, none⟩]
      (-1) =
      [⟨0, none, none, none⟩, ⟨1, none, none, none⟩, ⟨2, some 80, none, none⟩] := by
    norm_num [filterRecent]
  have hl : extractLevels
      [⟨0, none, none, none⟩, ⟨1, none, none, none⟩, ⟨2, some 80, none, none⟩] =
      [80] := by
    norm_num [extractLevels, List.filterMap_cons]
  constructor
  · rw [hf, hl]
    rfl
  · simp only [analyzeBatteryTrends, hf, hl]
    norm_num [calculateTrend, predictNextValue, getBatteryRecommendations]
    exact fun h => (nomatch h)

/-- C1 amended: `_analyze_battery_trends` yields no `battery_level` result
when the time-filtered window has fewer than 3 entries or when the extracted
series is empty (a nonempty shorter series still yields a result); when the
extracted series is exactly 3 equal integer values `v`, the result has trend
`stable` and prediction `v`. -/
theorem analyze_battery_amended :
    (∀ (H : List MetricSnapshot) (c : ℚ), (filterRecent H c).length < 3 →
        analyzeBatteryTrends H c = ⟨none, none⟩) ∧
    (∀ (H : List MetricSnapshot) (c : ℚ), extractLevels (filterRecent H c) = [] →
        (analyzeBatteryTrends H c).battery_level = none) ∧
    (∀ (H : List MetricSnapshot) (c : ℚ) (v : ℤ),
        extractLevels (filterRecent H c) = [(v : ℚ), v, v] →
        (analyzeBatteryTrends H c).battery_level =
          some ⟨"Battery Level", (v : ℚ), .stable, some (v : ℚ), 7/10,
                getBatteryRecommendations .stable (v : ℚ)⟩) := by
  refine ⟨?_, ?_, ?_⟩
  · intro H c h
    simp only [analyzeBatteryTrends]
    rw [if_pos h]
  · intro H c h
    simp only [analyzeBatteryTrends]
    split
    · rfl
    · rw [h]
      rfl
  · intro H c v h
    have h3 : ¬ (filterRecent H c).length < 3 := by
      have hle := List.length_filterMap_le (fun e => e.level) (filterRecent H c)
      have : (extractLevels (filterRecent H c)).length = 3 := by rw [h]; rfl
      simp only [extractLevels] at this
      omega
    simp only [analyzeBatteryTrends]
    rw [if_neg h3, h]
    have hlast : ([(v : ℚ), v, v] : List ℚ).getLast? = some (v : ℚ) := rfl
    rw [hlast]
    simp only [calculateTrend_const3, predictNext_const3]

/-- Witness for `analyze_battery_amended` on a window of three constant
readings of 5. -/
theorem analyze_battery_amended_witness :
    (analyzeBatteryTrends
        [⟨0, some 5, none, none⟩, ⟨1, some 5, none, none⟩, ⟨2, some 5, none, none⟩]
        (-1)).battery_level =
      some ⟨"Battery Level", ((5 : ℤ) : ℚ), .stable, some ((5 : ℤ) : ℚ), 7/10,
            getBatteryRecommendations .stable ((5 : ℤ) : ℚ)⟩ :=
  analyze_battery_amended.2.2 _ _ 5
    (by norm_num [extractLevels, filterRecent, List.filterMap_cons])

/-- C4 counterexample: a successful storage query reporting a full disk
(`AmountDataAvailable = 0`).  The underlying reading is the legitimate number
zero, but the Python truthiness guards record `available_gb`, `used_gb` and
`usage_percent` as absent — zero is coerced to the absent marker. -/
theorem storage_zero_absent_counterexample :
    (getStorageMetrics (some (64 * 2 ^ 30)) (some 0)).total_gb = some 64 ∧
    (getStorageMetrics (some (64 * 2 ^ 30)) (some 0)).available_gb = none ∧
    (getStorageMetrics (some (64 * 2 ^ 30)) (some 0)).used_gb = none ∧
    (getStorageMetrics (some (64 * 2 ^ 30)) (some 0)).usage_percent = none := by
  refine ⟨?_, ?_, ?_, ?_⟩ <;>
    norm_num [getStorageMetrics, pyTruthy, pyTruthyQ, round2]

/-- C4 amended: the battery producer records every reading verbatim (a zero
level or cycle count stays zero, distinct from absent), but the storage
producer guards every derived field with Python truthiness, so a zero-valued
reading is recorded as absent rather than zero. -/
theorem metrics_zero_amended :
    (∀ (lvl cyc : Option ℤ) (chg : Option String),
        (getBatteryMetrics lvl cyc chg).level = lvl ∧
        (getBatteryMetrics lvl cyc chg).cycle_count = cyc) ∧
    (∀ t a : ℤ, (getStorageMetrics (some t) (some a)).available_gb =
        if a = 0 then none else some (round2 ((a : ℚ) / 2 ^ 30))) ∧
    (∀ a : Option ℤ, (getStorageMetrics (some 0) a).total_gb = none) := by
  refine ⟨fun lvl cyc chg => ⟨rfl, rfl⟩, ?_, ?_⟩
  · intro t a
    by_cases ha : a = 0
    · simp [getStorageMetrics, pyTruthy, ha]
    · simp [getStorageMetrics, pyTruthy, ha]
  · intro a
    simp [getStorageMetrics, pyTruthy]

/-- C7: when the load step finds the history file missing or its content
corrupt, `_append_to_history` treats it as an empty log and still persists
the one-element log containing the new snapshot; when the final write fails,
the error is surfaced to the caller (the write sits outside every
`try`/`except`), never silently dropped. -/
theorem append_storage_failure :
    (∀ d : MetricSnapshot, appendToHistoryFS .corrupt d true = .ok [d]) ∧
    (∀ d : MetricSnapshot, appendToHistoryFS .noFile d true = .ok [d]) ∧
    (∀ (h : List MetricSnapshot) (d : MetricSnapshot),
        appendToHistoryFS (.ok h) d true = .ok (appendToHistory h d)) ∧
    (∀ (r : ReadOutcome) (d : MetricSnapshot),
        appendToHistoryFS r d false = .error ()) :=
  ⟨fun _ => rfl, fun _ => rfl, fun _ _ => rfl, fun _ _ => rfl⟩

/-- C8: after appending snapshot `S`, reading back any window whose cutoff is
at or before `S`'s timestamp yields `S` as its most recent entry, and the
serialize/deserialize round trip reproduces `S` exactly — present fields keep
their values and absent fields stay absent. -/
theorem snapshot_round_trip (hist : List MetricSnapshot) (S : MetricSnapshot)
    (c : ℚ) (h : c ≤ S.timestamp) :
    (filterRecent (appendToHistory hist S) c).getLast? = some S ∧
    decodeSnap (encodeSnap S) = some S := by
  constructor
  · have hk : (hist ++ [S]).length - historyCap ≤ hist.length := by
      simp [historyCap]
    rw [appendToHistory_eq_rtake, List.rtake, List.drop_append_of_le_length hk]
    rw [filterRecent, List.filter_append]
    have hS : List.filter (fun e => decide (c ≤ e.timestamp)) [S] = [S] := by
      simp [h]
    rw [hS]
    exact List.getLast?_concat _
  · rcases S with ⟨ts, lvl, cyc, chg⟩
    cases lvl <;> cases cyc <;> cases chg <;> rfl

/-- Witness for `snapshot_round_trip` at a concrete snapshot with a present
level, an absent cycle count and a present charging flag. -/
theorem snapshot_round_trip_witness :
    (filterRecent (appendToHistory []
        (⟨0, some 50, none, some true⟩ : MetricSnapshot)) 0).getLast? =
      some (⟨0, some 50, none, some true⟩ : MetricSnapshot) ∧
    decodeSnap (encodeSnap (⟨0, some 50, none, some true⟩ : MetricSnapshot)) =
      some (⟨0, some 50, none, some true⟩ : MetricSnapshot) :=
  snapshot_round_trip [] _ 0 (by norm_num)

/-- C9: a window taken with a shorter trailing duration is a sublist of the
window taken with a longer one; every window is an ordered sublist of the
stored history, equal to the filter keeping exactly the entries with
timestamp at or after the cutoff; a missing log, or a log whose entries are
all older than the cutoff, yields the empty sequence rather than an error. -/
theorem window_monotonicity :
    (∀ (store : Option (List MetricSnapshot)) (now d d2 : ℚ), d ≤ d2 →
        List.Sublist (windowQuery store (now - d)) (windowQuery store (now - d2))) ∧
    (∀ (h : List MetricSnapshot) (c : ℚ),
        List.Sublist (windowQuery (some h) c) h) ∧
    (∀ (h : List MetricSnapshot) (c : ℚ),
        windowQuery (some h) c = h.filter (fun e => decide (c ≤ e.timestamp))) ∧
    (∀ c : ℚ, windowQuery none c = []) ∧
    (∀ (h : List MetricSnapshot) (c : ℚ), (∀ e ∈ h, e.timestamp < c) →
        windowQuery (some h) c = []) := by
  refine ⟨?_, ?_, fun h c => rfl, fun c => rfl, ?_⟩
  · intro store now d d2 hd
    cases store with
    | none => exact List.Sublist.refl []
    | some h =>
      exact List.monotone_filter_right h (fun a ha => by
        have hts := of_decide_eq_true ha
        exact decide_eq_true (by linarith))
  · intro h c
    exact List.filter_sublist h
  · intro h c hall
    show List.filter _ h = []
    rw [List.filter_eq_nil_iff]
    intro a ha
    simp only [decide_eq_true_eq]
    exact not_le.mpr (hall a ha)

/-- Witness for `window_monotonicity` at a one-entry store and durations
1 ≤ 2, plus the all-too-old case. -/
theorem window_monotonicity_witness :
    List.Sublist
      (windowQuery (some [(⟨0, none, none, none⟩ : MetricSnapshot)]) (0 - 1))
      (windowQuery (some [(⟨0, none, none, none⟩ : MetricSnapshot)]) (0 - 2)) ∧
    windowQuery (some [(⟨0, none, none, none⟩ : MetricSnapshot)]) 1 = [] := by
  have hold : ∀ e ∈ [(⟨0, none, none, none⟩ : MetricSnapshot)], e.timestamp < 1 := by
    intro e he
    rw [List.mem_singleton] at he
    rw [he]
    norm_num
  exact ⟨window_monotonicity.1 _ 0 1 2 (by norm_num),
    window_monotonicity.2.2.2.2 _ 1 hold⟩

/-- C10: every thermal-performance result has an absent prediction and is
never `improving`: its trend is `stable` exactly when the thermal score
(100 minus the percentage of non-Normal, non-Fair states, floored at 0)
exceeds 80, and `degrading` otherwise. -/
theorem thermal_trend_spec :
    ∀ (H : List PerfEntry) (c : ℚ) (res : AnalyticsResult),
      analyzePerformanceTrends H c = some res →
      res.prediction = none ∧
      res.trend ≠ .improving ∧
      (res.trend = .stable ↔
        80 < thermalScore (thermalStatesOf (filterRecentPerf H c))) ∧
      (res.trend = .degrading ↔
        thermalScore (thermalStatesOf (filterRecentPerf H c)) ≤ 80) := by
  intro H c res h
  simp only [analyzePerformanceTrends] at h
  split at h
  · exact (nomatch h)
  · split at h
    · exact (nomatch h)
    · injection h with h
      subst h
      by_cases hs : 80 < thermalScore (thermalStatesOf (filterRecentPerf H c))
      · rw [if_pos hs]
        exact ⟨rfl, fun h => (nomatch h),
          ⟨fun _ => hs, fun _ => rfl⟩,
          ⟨fun h => (nomatch h), fun hle => absurd hs (not_lt.mpr hle)⟩⟩
      · rw [if_neg hs]
        exact ⟨rfl, fun h => (nomatch h),
          ⟨fun h => (nomatch h), fun hgt => absurd hgt hs⟩,
          ⟨fun _ => not_lt.mp hs, fun _ => rfl⟩⟩

/-- Witness for `thermal_trend_spec` at a three-entry window of `Normal`
thermal states (score 100, trend `stable`). -/
theorem thermal_trend_spec_witness :
    (⟨"Thermal Performance", 100, .stable, none, 3/5, []⟩ :
        AnalyticsResult).prediction = none ∧
    (⟨"Thermal Performance", 100, .stable, none, 3/5, []⟩ :
        AnalyticsResult).trend ≠ .improving ∧
    ((⟨"Thermal Performance", 100, .stable, none, 3/5, []⟩ :
        AnalyticsResult).trend = .stable ↔
      80 < thermalScore (thermalStatesOf (filterRecentPerf
        [⟨0, none, some "Normal"⟩, ⟨1, none, some "Normal"⟩,
         ⟨2, none, some "Normal"⟩] (-1)))) ∧
    ((⟨"Thermal Performance", 100, .stable, none, 3/5, []⟩ :
        AnalyticsResult).trend = .degrading ↔
      thermalScore (thermalStatesOf (filterRecentPerf
        [⟨0, none, some "Normal"⟩, ⟨1, none, some "Normal"⟩,
         ⟨2, none, some "Normal"⟩] (-1))) ≤ 80) := by
  have h1 : filterRecentPerf
      [⟨0, none, some "Normal"⟩, ⟨1, none, some "Normal"⟩, ⟨2, none, some "Normal"⟩]
      (-1) =
      [⟨0, none, some "Normal"⟩, ⟨1, none, some "Normal"⟩, ⟨2, none, some "Normal"⟩] := by
    norm_num [filterRecentPerf]
  have h2 : thermalStatesOf
      [(⟨0, none, some "Normal"⟩ : PerfEntry), ⟨1, none, some "Normal"⟩,
       ⟨2, none, some "Normal"⟩] =
      ["Normal", "Normal", "Normal"] := by
    simp [thermalStatesOf]
  have h3 : thermalScore ["Normal", "Normal", "Normal"] = 100 := by
    norm_num [thermalScore, thermalIssues]
  have hres : analyzePerformanceTrends
      [⟨0, none, some "Normal"⟩, ⟨1, none, some "Normal"⟩, ⟨2, none, some "Normal"⟩]
      (-1) =
      some ⟨"Thermal Performance", 100, .stable, none, 3/5, []⟩ := by
    simp only [analyzePerformanceTrends, h1, h2, h3]
    norm_num [getThermalRecommendations]
  exact thermal_trend_spec _ _ _ hres
